import Mathlib

/-
Verification of the dump2csv pipeline (src/dump2csv.py): shallow embedding of
the shard writer (save2csv, group_by_field), the transfer batcher (group_lst,
upload_csvs, _run_cmd_retry) and the load coordinator (load2bq), with the
external commands, the upload.info ledger and the write errors supplied by
oracle environments. Files are modelled as lists of lines, ledgers as lists of
parsed records (the csv module and the filesystem are external collaborators).
Python sets have no fixed iteration order; the model fixes the deterministic
first-occurrence order (pyNub), and every theorem below is order-independent.
-/

/-! ## Python string primitives used by the source -/

/-- pySplitChar c cs mirrors Python str.split(sep) for a one-character
separator, on the character list: "a//b".split("/") gives [a, empty, b]. -/
def pySplitChar (c : Char) : List Char → List (List Char)
  | [] => [[]]
  | x :: xs =>
    match pySplitChar c xs with
    | [] => [[]]
    | h :: t => if x = c then [] :: h :: t else (x :: h) :: t

/-- pySplit c s is Python s.split(c) for a one-character separator. -/
def pySplit (c : Char) (s : String) : List String :=
  (pySplitChar c s.data).map (fun l => String.mk l)

/-- pyStrip s cs is Python s.strip(chars): it removes, from BOTH ends of s,
every character that belongs to the set cs, stopping at the first character
outside cs. It is NOT literal-prefix removal. -/
def pyStrip (s : String) (cs : List Char) : String :=
  String.mk (((s.data.dropWhile (fun a => cs.contains a)).reverse.dropWhile
    (fun a => cs.contains a)).reverse)

/-- wsChars is the whitespace set of the no-argument Python str.strip(). -/
def wsChars : List Char := [' ', '\t', '\n', '\x0b', '\x0c', '\r']

/-- pyStripWs is Python s.strip() with no argument. -/
def pyStripWs (s : String) : String := pyStrip s wsChars

/-- basename mirrors posixpath.basename: everything after the last slash. -/
def basename (p : String) : String :=
  String.mk ((p.data.reverse.takeWhile (fun a => a ≠ '/')).reverse)

/-- dirname mirrors posixpath.dirname: everything before the last slash, with
trailing slashes removed unless the head is empty or only slashes. -/
def dirname (p : String) : String :=
  let head := (p.data.reverse.dropWhile (fun a => a ≠ '/')).reverse
  if head.isEmpty then ""
  else if head.all (fun a => a = '/') then String.mk head
  else String.mk ((head.reverse.dropWhile (fun a => a = '/')).reverse)

/-- pyNub removes duplicates keeping the first occurrence: the deterministic
stand-in for iterating a Python set built from a list. -/
def pyNub {α : Type} [DecidableEq α] : List α → List α
  | [] => []
  | x :: xs => x :: (pyNub xs).filter (fun y => decide (y ≠ x))

/-- pySetDiff xs ys is Python list(set(xs) - set(ys)) in first-occurrence
order of xs. -/
def pySetDiff (xs ys : List String) : List String :=
  (pyNub xs).filter (fun x => decide (x ∉ ys))

/-! ## The transfer ledger -/

/-- TransferRecord is one parsed row of the upload.info ledger as
csv.DictReader yields it; the source reads only the Source and Destination
columns (src/dump2csv.py lines 205 and 228), so only those are carried. -/
structure TransferRecord where
  source : String
  destination : String
deriving DecidableEq

/-- fileStripChars is the character set of strip("file://") at
src/dump2csv.py line 205: the characters f, i, l, e, colon, slash. -/
def fileStripChars : List Char := "file://".data

/-- gsStripChars is the character set of strip("gs://") at line 236. -/
def gsStripChars : List Char := "gs://".data

/-- reconcile is the reconciliation step of upload_csvs (lines 202-207): the
delivered sources are the ledger Source values passed through
strip("file://"), and the remaining set is list(set(batch) - set(sources)). -/
def reconcile (gcsvs : List String) (recs : List TransferRecord) : List String :=
  pySetDiff gcsvs (recs.map (fun r => pyStrip r.source fileStripChars))

/-- specStripFileScheme is the stripping the SPEC describes (Design Notes):
a literal-prefix removal that removes "file://" only if it appears at the
very start, and only once. Written from the spec words, for comparison with
the code-derived pyStrip. -/
def specStripFileScheme (s : String) : String :=
  if fileStripChars.isPrefixOf s.data then String.mk (s.data.drop fileStripChars.length)
  else s

/-! ## The bounded-retry helper -/

/-- runCmdRetry models _run_cmd_retry (lines 270-277) at the granularity of
single command executions: ok gives the result of the n-th execution overall,
inv is the index of the first execution this call makes, and the result is
(whether the final execution succeeded, how many executions were made). A
failing command is re-run until it succeeds or tries are exhausted. -/
def runCmdRetry (ok : Nat → Bool) (inv : Nat) : Nat → Bool × Nat
  | 0 => (false, 0)
  | 1 => (ok inv, 1)
  | t + 2 =>
    if ok inv then (true, 1)
    else ((runCmdRetry ok (inv + 1) (t + 1)).1, (runCmdRetry ok (inv + 1) (t + 1)).2 + 1)

/-! ## The transfer batcher: group_lst and upload_csvs -/

/-- UEnt is one element of the working list to_ups inside group_lst. Normally
a shard file path; csvMod stands for the global csv MODULE object that line
169 (to_ups.append(csv)) appends on a date change in place of the path csv_f. -/
inductive UEnt where
  | path (p : String)
  | csvMod
deriving DecidableEq

/-- allPaths? b is some of the path strings when no csv-module object is in
the batch; none models the TypeError that dirname or the string join raises
in upload_csvs as soon as a batch holds the module object. -/
def allPaths? : List UEnt → Option (List String)
  | [] => some []
  | UEnt.path p :: rest => (allPaths? rest).map (fun l => p :: l)
  | UEnt.csvMod :: _ => none

/-- Act is one externally visible action of upload_csvs: one execution of the
gsutil batch command (with its source list), or one bqueue.put of a partition
directory (line 212). -/
inductive Act where
  | invoke (srcs : List String)
  | putB (dir : String)
deriving DecidableEq

/-- BatchEvent records one resolved batch of upload_csvs: the batch paths,
whether the command finally succeeded, the loop_times value before this batch,
and the list sent back into the generator afterwards. -/
structure BatchEvent where
  batch : List String
  ok : Bool
  ltBefore : Nat
  sent : List String
deriving DecidableEq

/-- UpEnv supplies the externals of upload_csvs: cmdOk n is the exit status
of the n-th gsutil execution (true = zero), ledger k the parsed upload.info
contents at the k-th reconciliation read. The ledger file is assumed readable,
per the transfer tool contract. -/
structure UpEnv where
  cmdOk : Nat → Bool
  ledger : Nat → List TransferRecord

/-- StepRes is the outcome of the upload_csvs loop body on one yielded batch:
stop is the break on an empty batch (line 179), crash the TypeError on a
batch holding the csv module object, cont a resolved batch with its event,
its action trace and the updated loop_times, execution and ledger indices. -/
inductive StepRes where
  | stop
  | crash
  | cont (ev : BatchEvent) (acts : List Act) (lt inv rix : Nat)

/-- consume is the body of the for-loop of upload_csvs (lines 178-212) on one
yielded batch: break on empty; otherwise run the batch command through
_run_cmd_retry with 3 tries; on success send back the empty list; on failure
increment loop_times, and while it stays below 3 parse upload.info and send
back remaining = batch - delivered (reconcile), else send back the empty
list; in every resolved case put the partition directory once on bqueue. -/
def consume (env : UpEnv) (b : List UEnt) (lt inv rix : Nat) : StepRes :=
  if b.isEmpty then StepRes.stop
  else
    match allPaths? b with
    | none => StepRes.crash
    | some bs =>
      if (runCmdRetry env.cmdOk inv 3).1 then
        StepRes.cont ⟨bs, true, lt, []⟩
          (List.replicate (runCmdRetry env.cmdOk inv 3).2 (Act.invoke bs)
            ++ [Act.putB (dirname (bs.headD ""))])
          lt (inv + (runCmdRetry env.cmdOk inv 3).2) rix
      else if lt + 1 < 3 then
        StepRes.cont ⟨bs, false, lt, reconcile bs (env.ledger rix)⟩
          (List.replicate (runCmdRetry env.cmdOk inv 3).2 (Act.invoke bs)
            ++ [Act.putB (dirname (bs.headD ""))])
          (lt + 1) (inv + (runCmdRetry env.cmdOk inv 3).2) (rix + 1)
      else
        StepRes.cont ⟨bs, false, lt, []⟩
          (List.replicate (runCmdRetry env.cmdOk inv 3).2 (Act.invoke bs)
            ++ [Act.putB (dirname (bs.headD ""))])
          (lt + 1) (inv + (runCmdRetry env.cmdOk inv 3).2) rix

/-- UpRun is one run of upload_csvs: the resolved batches in order, the flat
action trace, and whether the run ended in an uncaught exception. -/
structure UpRun where
  events : List BatchEvent
  trace : List Act
  crashed : Bool
deriving DecidableEq

/-- upLoop fuses the generator group_lst (lines 155-172) with its only
consumer, the for-loop of upload_csvs: paths are accumulated while the
partition date (basename of dirname) is unchanged, a batch is yielded when 8
paths accumulate or the date changes or the input ends, the consumer's send
value replaces the accumulator, and on a date change the generator appends
the csv MODULE object (the line 169 typo) instead of the current path. The
value sent after the final yield is dropped (the generator ends). -/
def upLoop (env : UpEnv) : List String → List UEnt → Option String → Nat → Nat → Nat → UpRun
  | [], t, _, lt, inv, rix =>
    match consume env t lt inv rix with
    | StepRes.stop => ⟨[], [], false⟩
    | StepRes.crash => ⟨[], [], true⟩
    | StepRes.cont ev acts _ _ _ => ⟨[ev], acts, false⟩
  | c :: rest, t, pre, lt, inv, rix =>
    let cur := basename (dirname c)
    if pre = none ∨ pre = some cur then
      let t2 := t ++ [UEnt.path c]
      if 8 ≤ t2.length then
        match consume env t2 lt inv rix with
        | StepRes.stop => ⟨[], [], false⟩
        | StepRes.crash => ⟨[], [], true⟩
        | StepRes.cont ev acts lt2 inv2 rix2 =>
          ⟨ev :: (upLoop env rest (ev.sent.map UEnt.path) (some cur) lt2 inv2 rix2).events,
           acts ++ (upLoop env rest (ev.sent.map UEnt.path) (some cur) lt2 inv2 rix2).trace,
           (upLoop env rest (ev.sent.map UEnt.path) (some cur) lt2 inv2 rix2).crashed⟩
      else upLoop env rest t2 (some cur) lt inv rix
    else
      match consume env t lt inv rix with
      | StepRes.stop => ⟨[], [], false⟩
      | StepRes.crash => ⟨[], [], true⟩
      | StepRes.cont ev acts lt2 inv2 rix2 =>
        ⟨ev :: (upLoop env rest (ev.sent.map UEnt.path ++ [UEnt.csvMod]) (some cur) lt2 inv2 rix2).events,
         acts ++ (upLoop env rest (ev.sent.map UEnt.path ++ [UEnt.csvMod]) (some cur) lt2 inv2 rix2).trace,
         (upLoop env rest (ev.sent.map UEnt.path ++ [UEnt.csvMod]) (some cur) lt2 inv2 rix2).crashed⟩

/-- upload_csvs env csvs runs upload_csvs (lines 175-212) on the drained
queue contents csvs, from an empty working list and loop_times 0. -/
def upload_csvs (env : UpEnv) (csvs : List String) : UpRun :=
  upLoop env csvs [] none 0 0 0

/-- group_lst send csvs t pre i is the generator group_lst in isolation, with
the consumer abstracted as the oracle send (the value passed into the k-th
gen.send). It returns the list of yielded batches; the value sent after the
final yield is dropped. -/
def group_lst (send : Nat → List UEnt) : List String → List UEnt → Option String → Nat → List (List UEnt)
  | [], t, _, _ => [t]
  | c :: rest, t, pre, i =>
    let cur := basename (dirname c)
    if pre = none ∨ pre = some cur then
      let t2 := t ++ [UEnt.path c]
      if 8 ≤ t2.length then t2 :: group_lst send rest (send i) (some cur) (i + 1)
      else group_lst send rest t2 (some cur) i
    else t :: group_lst send rest (send i ++ [UEnt.csvMod]) (some cur) (i + 1)

/-- chunksOf8 is plain chunking of the input into successive groups that
close as soon as they reach 8 elements, the last (possibly empty) group
emitted at the end: the grouping group_lst performs when all dates agree and
every send is the empty list. -/
def chunksOf8 : List String → List UEnt → List (List UEnt)
  | [], acc => [acc]
  | c :: rest, acc =>
    let acc2 := acc ++ [UEnt.path c]
    if 8 ≤ acc2.length then acc2 :: chunksOf8 rest [] else chunksOf8 rest acc2

/-! ## Observations on the upload trace -/

/-- actPut projects a bqueue.put action to its partition directory. -/
def actPut (a : Act) : Option String :=
  match a with
  | Act.putB d => some d
  | _ => none

/-- isInvoke marks one execution of the gsutil batch command. -/
def isInvoke (a : Act) : Bool :=
  match a with
  | Act.invoke _ => true
  | _ => false

/-- badEv marks a resolved batch that failed and sent a nonempty remainder
back into the grouping generator (a re-submission). -/
def badEv (e : BatchEvent) : Bool := !e.ok && !e.sent.isEmpty

/-! ## The load coordinator: load2bq -/

/-- BqEnv supplies the externals of load2bq: cmdOk n is the exit status of
the n-th external command execution in the cycle (bq mk and bq load both go
through _run_cmd_retry with 3 tries), schemaExists the os.path.exists check
on the conventional schema-repository path (line 252). -/
structure BqEnv where
  cmdOk : Nat → Bool
  schemaExists : String → Bool

/-- LAct is one external command round of load2bq at _run_cmd_retry
granularity: one dataset creation (bq mk, line 247) or one table load
(bq load, line 260), each with its final outcome. -/
inductive LAct where
  | mkDataset (dataset : String) (ok : Bool)
  | loadTable (dataset table : String) (schema : Option String) (uri : String) (ok : Bool)
deriving DecidableEq

/-- BqRun is one load cycle: the command rounds in order, the final lines of
bqload.info, and whether the cycle died in an uncaught exception (the
ValueError of the 5-element destructuring at line 236, or the IndexError of
split into db and table at lines 237-238). -/
structure BqRun where
  acts : List LAct
  bqLines : List String
  crashed : Bool
deriving DecidableEq

/-- parseDest models line 236: gs_url.strip("gs://").split(slash) unpacked
into exactly five segments, of which the second (system), third (server id)
and fifth (csv file name) are used; any other segment count raises, giving
none. Note the strip is the character-set strip, not scheme removal. -/
def parseDest (u : String) : Option (String × String × String) :=
  match pySplit '/' (pyStrip u gsStripChars) with
  | [_, system, sid, _, csvFile] => some (system, sid, csvFile)
  | _ => none

/-- dbTb models lines 237-238: the database is the text before the first dot
of the csv file name and the table the next dot component; a name with no
dot raises IndexError, giving none. -/
def dbTb (csvFile : String) : Option (String × String) :=
  match pySplit '.' csvFile with
  | d :: t :: _ => some (d, t)
  | _ => none

/-- destParses u holds when the destination URI decomposes without raising:
five slash segments after the character-set strip and at least two dot
components in the file name. -/
def destParses (u : String) : Bool :=
  match parseDest u with
  | some (_, _, f) => (dbTb f).isSome
  | none => false

/-- loadGo is the per-destination loop of load2bq (lines 234-267): decompose
the URI (crash on failure, keeping the lines appended so far), derive the
dataset from the database segment alone (line 246), run bq mk and bq load
through the bounded-retry helper, and append the URI to bqload.info exactly
when the load succeeded (line 263); a load failure is logged and the loop
continues with the next destination. -/
def loadGo (env : BqEnv) : List String → List String → Nat → BqRun
  | [], acc, _ => ⟨[], acc, false⟩
  | u :: rest, acc, inv =>
    match parseDest u with
    | none => ⟨[], acc, true⟩
    | some psc =>
      match dbTb psc.2.2 with
      | none => ⟨[], acc, true⟩
      | some dt =>
        let schemaPath := "bq_schema/" ++ psc.1 ++ "/" ++ psc.2.1 ++ "/" ++ dt.1 ++ "/" ++ dt.2
        let mkOk := (runCmdRetry env.cmdOk inv 3).1
        let u1 := (runCmdRetry env.cmdOk inv 3).2
        let schema := if env.schemaExists schemaPath then some schemaPath else none
        let ldOk := (runCmdRetry env.cmdOk (inv + u1) 3).1
        let u2 := (runCmdRetry env.cmdOk (inv + u1) 3).2
        let acc2 := if ldOk then acc ++ [u] else acc
        ⟨LAct.mkDataset dt.1 mkOk ::
           LAct.loadTable dt.1 dt.2 schema u ldOk :: (loadGo env rest acc2 (inv + u1 + u2)).acts,
         (loadGo env rest acc2 (inv + u1 + u2)).bqLines,
         (loadGo env rest acc2 (inv + u1 + u2)).crashed⟩

/-- load2bq env uploadRecs bqLines is one load cycle (lines 216-267) on a
partition directory: loaded is the stripped lines of bqload.info, uploaded
the Destination values of upload.info,
pending their set difference in first-occurrence order; then the
per-destination loop runs with bqload.info opened for append. An absent
bqload.info is the empty line list. -/
def load2bq (env : BqEnv) (uploadRecs : List TransferRecord) (bqLines : List String) : BqRun :=
  let loadeds := bqLines.map pyStripWs
  let gsUrls := uploadRecs.map (fun r => r.destination)
  loadGo env (pySetDiff gsUrls loadeds) bqLines 0

/-- loadUris lists the destination URIs of the load rounds of a cycle. -/
def loadUris (acts : List LAct) : List String :=
  acts.filterMap (fun a =>
    match a with
    | LAct.loadTable _ _ _ u _ => some u
    | _ => none)

/-- runCycles folds a sequence of load cycles over one partition directory:
each cycle reads the upload.info of its moment and the bqload.info left by
the cycle before. -/
def runCycles : List (BqEnv × List TransferRecord) → List String → List String
  | [], bq => bq
  | c :: rest, bq => runCycles rest (load2bq c.1 c.2 bq).bqLines

/-! ## The shard writer: group_by_field and save2csv -/

/-- Row is one cached row as a mapping of column name to value, given as an
association list (Python dict keys are unique; nothing below depends on it). -/
abbrev Row : Type := List (String × String)

/-- charsLe is lexicographic comparison of character lists by code point:
the order Python list.sort puts string field names in. -/
def charsLe : List Char → List Char → Bool
  | [], _ => true
  | _ :: _, [] => false
  | a :: as, b :: bs => if a = b then charsLe as bs else decide (a < b)

/-- insertKey inserts a field name into a sorted list (insertion sort step). -/
def insertKey (x : String) : List String → List String
  | [] => [x]
  | y :: ys => if charsLe x.data y.data then x :: y :: ys else y :: insertKey x ys

/-- sortKeys sorts field names ascending, as fields.sort() does at line 58. -/
def sortKeys : List String → List String
  | [] => []
  | x :: xs => insertKey x (sortKeys xs)

/-- fingerprint row is the sorted tuple of the row's column names: the key
group_by_field files the row under (lines 56-59). -/
def fingerprint (row : Row) : List String := sortKeys (row.map (fun kv => kv.1))

/-- group_by_field rows mirrors lines 50-60: rows grouped by their sorted
field tuple. A Python dict iterates in no promised order (Python 2); the
model fixes first-occurrence order of the keys, and no theorem below depends
on the group order. -/
def group_by_field (rows : List Row) : List (List String × List Row) :=
  (pyNub (rows.map fingerprint)).map
    (fun k => (k, rows.filter (fun r => decide (fingerprint r = k))))

/-- SaveLog is one logger call of save2csv, by call site: the no-rows info
(line 74), the drift warning (line 79), the per-shard dump info (line 88),
the per-shard done info (line 95), the dispatch info (line 97), the final
table OK info (line 100) and the error log of the except block (line 102). -/
inductive SaveLog where
  | noRowsInfo
  | driftWarn
  | dumpInfo
  | doneInfo
  | dispatchInfo
  | okInfo
  | dumpError
deriving DecidableEq

/-- Shard is one written shard file: its sorted field names (the csv header),
how many rows it got, and its suffix, csv or tmp. The timestamped file name
itself is external time and is not carried. -/
structure Shard where
  fieldnames : List String
  rowCount : Nat
  suffix : String
deriving DecidableEq

/-- SaveEnv supplies the externals of save2csv: writeError i is some
exception value when writing the i-th fingerprint group (makedirs, open or
the csv writer) raises, none when the write succeeds. -/
structure SaveEnv where
  writeError : Nat → Option String

/-- saveGo is the per-group loop of save2csv (lines 81-99): each group
writes one shard with the common suffix and logs dump info and done info
(and dispatch info when a remote store is configured); a raising write logs
only its dump info and aborts the loop with the exception value. -/
def saveGo (env : SaveEnv) (suffix : String) (gs : Bool) :
    List (List String × List Row) → Nat → List Shard × List SaveLog × Option String
  | [], _ => ([], [], none)
  | g :: rest, i =>
    match env.writeError i with
    | some e => ([], [SaveLog.dumpInfo], some e)
    | none =>
      (⟨g.1, g.2.length, suffix⟩ :: (saveGo env suffix gs rest (i + 1)).1,
       SaveLog.dumpInfo :: SaveLog.doneInfo ::
         ((if gs then [SaveLog.dispatchInfo] else [])
           ++ (saveGo env suffix gs rest (i + 1)).2.1),
       (saveGo env suffix gs rest (i + 1)).2.2)

/-- SaveRes is one save2csv call: the shards written, the log entries in
order, and the exception re-raised by the except block (none when the call
returned normally). -/
structure SaveRes where
  shards : List Shard
  logs : List SaveLog
  err : Option String
deriving DecidableEq

/-- save2csv env trows gs mirrors lines 62-103: an empty row set logs and
returns; otherwise the rows are grouped by fingerprint, more than one group
flags the table altered (warning logged, suffix tmp instead of csv), the
groups are written in turn, and any exception is logged (line 102) and then
re-raised, aborting the table's dump. -/
def save2csv (env : SaveEnv) (trows : List Row) (gs : Bool) : SaveRes :=
  if trows.isEmpty then ⟨[], [SaveLog.noRowsInfo], none⟩
  else
    if 1 < (group_by_field trows).length then
      match saveGo env "tmp" gs (group_by_field trows) 0 with
      | (sh, lg, some e) => ⟨sh, SaveLog.driftWarn :: (lg ++ [SaveLog.dumpError]), some e⟩
      | (sh, lg, none) => ⟨sh, SaveLog.driftWarn :: (lg ++ [SaveLog.okInfo]), none⟩
    else
      match saveGo env "csv" gs (group_by_field trows) 0 with
      | (sh, lg, some e) => ⟨sh, lg ++ [SaveLog.dumpError], some e⟩
      | (sh, lg, none) => ⟨sh, lg ++ [SaveLog.okInfo], none⟩

/-! ## Helper lemmas for the string and list primitives -/

lemma mem_pyNub {α : Type} [DecidableEq α] (xs : List α) (x : α) :
    x ∈ pyNub xs ↔ x ∈ xs := by
  induction xs with
  | nil => simp [pyNub]
  | cons a as ih =>
    by_cases hx : x = a
    · subst hx; simp [pyNub]
    · simp [pyNub, List.mem_filter, ih, hx]

lemma mem_pySetDiff (xs ys : List String) (x : String) :
    x ∈ pySetDiff xs ys ↔ x ∈ xs ∧ x ∉ ys := by
  simp [pySetDiff, List.mem_filter, mem_pyNub]

lemma pySetDiff_sub (xs ys : List String) (x : String) :
    x ∈ pySetDiff xs ys → x ∈ xs :=
  fun h => ((mem_pySetDiff xs ys x).1 h).1

lemma pySetDiff_eq_nil (xs ys : List String) (h : ∀ x ∈ xs, x ∈ ys) :
    pySetDiff xs ys = [] := by
  apply List.eq_nil_iff_forall_not_mem.2
  intro x hx
  rcases (mem_pySetDiff xs ys x).1 hx with ⟨h1, h2⟩
  exact h2 (h x h1)

lemma runCmdRetry_snd_le (ok : Nat → Bool) : ∀ (t inv : Nat), (runCmdRetry ok inv t).2 ≤ t
  | 0, _ => by simp [runCmdRetry]
  | 1, _ => by simp [runCmdRetry]
  | t + 2, inv => by
    unfold runCmdRetry
    split
    · simp
    · have := runCmdRetry_snd_le ok (t + 1) (inv + 1)
      simp
      omega

lemma filterMap_actPut_replicate (n : Nat) (bs : List String) :
    (List.replicate n (Act.invoke bs)).filterMap actPut = [] := by
  induction n with
  | zero => rfl
  | succ k ih => simp [List.replicate_succ, List.filterMap_cons, actPut, ih]

lemma countP_isInvoke_replicate (n : Nat) (bs : List String) :
    (List.replicate n (Act.invoke bs)).countP isInvoke = n := by
  induction n with
  | zero => rfl
  | succ k ih => simp [List.replicate_succ, List.countP_cons, isInvoke, ih]

lemma consume_cont (env : UpEnv) (b : List UEnt) (lt inv rix : Nat)
    (ev : BatchEvent) (acts : List Act) (lt2 inv2 rix2 : Nat)
    (h : consume env b lt inv rix = StepRes.cont ev acts lt2 inv2 rix2) :
    acts.filterMap actPut = [dirname (ev.batch.headD "")]
    ∧ acts.countP isInvoke ≤ 3
    ∧ lt ≤ lt2
    ∧ (badEv ev = true → lt < 2 ∧ lt2 = lt + 1) := by
  unfold consume at h
  split at h
  · exact absurd h (by simp)
  · split at h
    · exact absurd h (by simp)
    · split at h
      · cases h
        refine ⟨?_, ?_, Nat.le_refl lt, ?_⟩
        · simp [List.filterMap_append, filterMap_actPut_replicate, actPut]
        · simp [List.countP_append, countP_isInvoke_replicate, isInvoke,
            runCmdRetry_snd_le]
        · intro hb
          exact absurd hb (by simp [badEv])
      · split at h
        · cases h
          refine ⟨?_, ?_, Nat.le_succ lt, ?_⟩
          · simp [List.filterMap_append, filterMap_actPut_replicate, actPut]
          · simp [List.countP_append, countP_isInvoke_replicate, isInvoke,
              runCmdRetry_snd_le]
          · intro _
            omega
        · cases h
          refine ⟨?_, ?_, Nat.le_succ lt, ?_⟩
          · simp [List.filterMap_append, filterMap_actPut_replicate, actPut]
          · simp [List.countP_append, countP_isInvoke_replicate, isInvoke,
              runCmdRetry_snd_le]
          · intro hb
            exact absurd hb (by simp [badEv])

lemma upLoop_spec (env : UpEnv) : ∀ (csvs : List String) (t : List UEnt)
    (pre : Option String) (lt inv rix : Nat),
    (upLoop env csvs t pre lt inv rix).trace.filterMap actPut
      = (upLoop env csvs t pre lt inv rix).events.map (fun e => dirname (e.batch.headD ""))
    ∧ (upLoop env csvs t pre lt inv rix).trace.countP isInvoke
      ≤ 3 * (upLoop env csvs t pre lt inv rix).events.length
    ∧ (lt < 2 →
        ((upLoop env csvs t pre lt inv rix).events.filter badEv).length + lt ≤ 2)
    ∧ (2 ≤ lt → ((upLoop env csvs t pre lt inv rix).events.filter badEv).length = 0)
  | [], t, pre, lt, inv, rix => by
    simp only [upLoop]
    rcases hc : consume env t lt inv rix with _ | _ | ⟨ev, acts, lt2, inv2, rix2⟩
    · refine ⟨by simp, by simp, ?_, by simp⟩
      intro h
      simp
      omega
    · refine ⟨by simp, by simp, ?_, by simp⟩
      intro h
      simp
      omega
    · obtain ⟨hput, hcnt, _, hbad⟩ := consume_cont env t lt inv rix ev acts lt2 inv2 rix2 hc
      refine ⟨by simpa using hput, by simpa using hcnt, ?_, ?_⟩
      · intro hlt
        by_cases hb : badEv ev = true
        · have := (hbad hb).1
          simp [List.filter_cons, hb]
          omega
        · simp [List.filter_cons, hb]
          omega
      · intro hlt
        by_cases hb : badEv ev = true
        · have := (hbad hb).1
          omega
        · simp [List.filter_cons, hb]
  | c :: rest, t, pre, lt, inv, rix => by
    simp only [upLoop]
    split
    · split
      · rcases hc : consume env (t ++ [UEnt.path c]) lt inv rix
          with _ | _ | ⟨ev, acts, lt2, inv2, rix2⟩
        · refine ⟨by simp, by simp, ?_, by simp⟩
          intro h
          simp
          omega
        · refine ⟨by simp, by simp, ?_, by simp⟩
          intro h
          simp
          omega
        · obtain ⟨hput, hcnt, hle, hbad⟩ :=
            consume_cont env (t ++ [UEnt.path c]) lt inv rix ev acts lt2 inv2 rix2 hc
          obtain ⟨ih1, ih2, ih3, ih4⟩ :=
            upLoop_spec env rest (ev.sent.map UEnt.path) (some (basename (dirname c)))
              lt2 inv2 rix2
          refine ⟨?_, ?_, ?_, ?_⟩
          · simp [List.filterMap_append, hput, ih1]
          · simp only [List.countP_append, List.length_cons]
            omega
          · intro hlt
            by_cases hb : badEv ev = true
            · obtain ⟨h1, h2⟩ := hbad hb
              simp only [List.filter_cons, hb, if_pos, List.length_cons]
              by_cases h3 : lt2 < 2
              · have := ih3 h3
                omega
              · have := ih4 (by omega)
                omega
            · simp only [List.filter_cons, hb]
              by_cases h3 : lt2 < 2
              · have := ih3 h3
                simp only [Bool.false_eq_true, if_false]
                omega
              · have := ih4 (by omega)
                simp only [Bool.false_eq_true, if_false]
                omega
          · intro hlt
            by_cases hb : badEv ev = true
            · have := (hbad hb).1
              omega
            · have := ih4 (by omega)
              simp [List.filter_cons, hb, this]
      · exact upLoop_spec env rest (t ++ [UEnt.path c]) (some (basename (dirname c))) lt inv rix
    · rcases hc : consume env t lt inv rix with _ | _ | ⟨ev, acts, lt2, inv2, rix2⟩
      · refine ⟨by simp, by simp, ?_, by simp⟩
        intro h
        simp
        omega
      · refine ⟨by simp, by simp, ?_, by simp⟩
        intro h
        simp
        omega
      · obtain ⟨hput, hcnt, hle, hbad⟩ :=
          consume_cont env t lt inv rix ev acts lt2 inv2 rix2 hc
        obtain ⟨ih1, ih2, ih3, ih4⟩ :=
          upLoop_spec env rest (ev.sent.map UEnt.path ++ [UEnt.csvMod])
            (some (basename (dirname c))) lt2 inv2 rix2
        refine ⟨?_, ?_, ?_, ?_⟩
        · simp [List.filterMap_append, hput, ih1]
        · simp only [List.countP_append, List.length_cons]
          omega
        · intro hlt
          by_cases hb : badEv ev = true
          · obtain ⟨h1, h2⟩ := hbad hb
            simp only [List.filter_cons, hb, if_pos, List.length_cons]
            by_cases h3 : lt2 < 2
            · have := ih3 h3
              omega
            · have := ih4 (by omega)
              omega
          · simp only [List.filter_cons, hb]
            by_cases h3 : lt2 < 2
            · have := ih3 h3
              simp only [Bool.false_eq_true, if_false]
              omega
            · have := ih4 (by omega)
              simp only [Bool.false_eq_true, if_false]
              omega
        · intro hlt
          by_cases hb : badEv ev = true
          · have := (hbad hb).1
            omega
          · have := ih4 (by omega)
            simp [List.filter_cons, hb, this]

/-! ## Lemmas on the grouping generator -/

lemma group_lst_same_date (d : String) : ∀ (csvs : List String) (acc : List UEnt)
    (pre : Option String) (i : Nat),
    (∀ p ∈ csvs, basename (dirname p) = d) → (pre = none ∨ pre = some d) →
    group_lst (fun _ => []) csvs acc pre i = chunksOf8 csvs acc
  | [], acc, pre, i => by
    intro _ _
    simp [group_lst, chunksOf8]
  | c :: rest, acc, pre, i => by
    intro h hp
    have hc : basename (dirname c) = d := h c (by simp)
    have hrest : ∀ p ∈ rest, basename (dirname p) = d := fun p hp' => h p (by simp [hp'])
    simp only [group_lst, chunksOf8, hc]
    rw [if_pos hp]
    by_cases h8 : 8 ≤ (acc ++ [UEnt.path c]).length
    · rw [if_pos h8, if_pos h8]
      exact congrArg _ (group_lst_same_date d rest [] (some d) (i + 1) hrest (Or.inr rfl))
    · rw [if_neg h8, if_neg h8]
      exact group_lst_same_date d rest (acc ++ [UEnt.path c]) (some d) i hrest (Or.inr rfl)

lemma chunksOf8_len : ∀ (csvs : List String) (acc : List UEnt), acc.length ≤ 7 →
    ∀ b ∈ chunksOf8 csvs acc, b.length ≤ 8
  | [], acc => by
    intro h b hb
    simp only [chunksOf8, List.mem_singleton] at hb
    subst hb
    omega
  | c :: rest, acc => by
    intro h b hb
    simp only [chunksOf8] at hb
    by_cases h8 : 8 ≤ (acc ++ [UEnt.path c]).length
    · rw [if_pos h8] at hb
      rcases List.mem_cons.1 hb with hb | hb
      · subst hb
        simp only [List.length_append, List.length_singleton]
        omega
      · exact chunksOf8_len rest [] (by simp) b hb
    · rw [if_neg h8] at hb
      refine chunksOf8_len rest (acc ++ [UEnt.path c]) ?_ b hb
      simp only [List.length_append, List.length_singleton] at h8 ⊢
      omega

lemma loadGo_uris (env : BqEnv) (us : List String) (acc : List String) (inv : Nat)
    (h : ∀ u ∈ us, destParses u = true) :
    loadUris (loadGo env us acc inv).acts = us := by
  induction us generalizing acc inv with
  | nil => simp [loadGo, loadUris]
  | cons u rest ih =>
    have hu := h u (by simp)
    unfold destParses at hu
    rcases hp : parseDest u with _ | psc
    · rw [hp] at hu; exact absurd hu (by simp)
    · obtain ⟨sys, sid, f⟩ := psc
      rw [hp] at hu
      simp only [Option.isSome] at hu
      rcases hd : dbTb f with _ | dt
      · rw [hd] at hu; exact absurd hu (by simp)
      · simp only [loadGo, hp, hd, loadUris, List.filterMap_cons]
        exact congrArg (List.cons u) (ih _ _ (fun v hv => h v (by simp [hv])))

lemma loadGo_lines (env : BqEnv) (us : List String) (acc : List String) (inv : Nat)
    (l : String) (h : l ∈ (loadGo env us acc inv).bqLines) : l ∈ acc ∨ l ∈ us := by
  induction us generalizing acc inv with
  | nil => simp only [loadGo] at h; exact Or.inl h
  | cons u rest ih =>
    rcases hp : parseDest u with _ | psc
    · simp only [loadGo, hp] at h; exact Or.inl h
    · rcases hd : dbTb psc.2.2 with _ | dt
      · simp only [loadGo, hp, hd] at h; exact Or.inl h
      · simp only [loadGo, hp, hd] at h
        rcases ih _ _ h with hacc | hrest
        · by_cases hok : (runCmdRetry env.cmdOk
              (inv + (runCmdRetry env.cmdOk inv 3).2) 3).1
          · simp only [hok, if_true, List.mem_append, List.mem_singleton] at hacc
            rcases hacc with h1 | h2
            · exact Or.inl h1
            · exact Or.inr (by simp [h2])
          · simp only [hok, if_false] at hacc
            exact Or.inl hacc
        · exact Or.inr (by simp [hrest])

lemma load2bq_lines (env : BqEnv) (recs : List TransferRecord) (bq : List String)
    (l : String) (h : l ∈ (load2bq env recs bq).bqLines) :
    l ∈ bq ∨ l ∈ recs.map (fun r => r.destination) := by
  unfold load2bq at h
  rcases loadGo_lines env _ bq 0 l h with h1 | h2
  · exact Or.inl h1
  · exact Or.inr (pySetDiff_sub _ _ _ h2)

lemma saveGo_suffix (env : SaveEnv) (suffix : String) (gs : Bool) :
    ∀ (groups : List (List String × List Row)) (i : Nat),
    ∀ s ∈ (saveGo env suffix gs groups i).1, s.suffix = suffix
  | [], i => by simp [saveGo]
  | g :: rest, i => by
    intro s hs
    simp only [saveGo] at hs
    rcases he : env.writeError i with _ | e
    · rw [he] at hs
      rcases List.mem_cons.1 hs with hs | hs
      · subst hs; rfl
      · exact saveGo_suffix env suffix gs rest (i + 1) s hs
    · rw [he] at hs
      exact absurd hs (by simp)

lemma saveGo_err (env : SaveEnv) (suffix : String) (gs : Bool) :
    ∀ (groups : List (List String × List Row)) (i0 : Nat) (e : String),
    (saveGo env suffix gs groups i0).2.2 = some e →
    ∃ k, k < groups.length ∧ env.writeError (i0 + k) = some e
      ∧ (∀ j, j < k → env.writeError (i0 + j) = none)
      ∧ (saveGo env suffix gs groups i0).1.length = k
  | [], i0, e => by simp [saveGo]
  | g :: rest, i0, e => by
    intro h
    rcases he : env.writeError i0 with _ | e'
    · simp only [saveGo, he] at h ⊢
      obtain ⟨k, hk1, hk2, hk3, hk4⟩ := saveGo_err env suffix gs rest (i0 + 1) e h
      refine ⟨k + 1, by simp only [List.length_cons]; omega, ?_, ?_, ?_⟩
      · have : i0 + (k + 1) = i0 + 1 + k := by omega
        rw [this]
        exact hk2
      · intro j hj
        rcases j with _ | j'
        · exact he
        · have : i0 + (j' + 1) = i0 + 1 + j' := by omega
          rw [this]
          exact hk3 j' (by omega)
      · simp [hk4]
    · simp only [saveGo, he] at h ⊢
      have hee : e' = e := by
        simpa using h
      subst hee
      exact ⟨0, by simp, by simpa using he, by omega, by simp⟩

/-! ## Claim C1 -/

/-- Claim C1 counterexample: the batch path /data/20240101/db.t.1.csv is
recorded in upload.info as Source file:///data/20240101/db.t.1.csv. Under
the literal-prefix stripping the claim describes, the delivered source equals
the batch path and remaining would be empty; the code (strip with a character
set) removes the leading slash of the absolute path as well, so the stripped
source does not match and remaining is the whole batch: a further transfer
attempt is made for an already delivered file. -/
theorem c1_counterexample :
    specStripFileScheme "file:///data/20240101/db.t.1.csv" = "/data/20240101/db.t.1.csv"
    ∧ pyStrip "file:///data/20240101/db.t.1.csv" fileStripChars = "data/20240101/db.t.1.csv"
    ∧ reconcile ["/data/20240101/db.t.1.csv"]
        [⟨"file:///data/20240101/db.t.1.csv", "gs://b/sys/sid/20240101/db.t.1.csv"⟩]
      = ["/data/20240101/db.t.1.csv"] := by
  decide

/-- Claim C1 amended: on a failed batch the code computes the delivered set
by applying Python str.strip with the character set of "file://" to each
ledger Source (removing those characters from both ends, not a single
literal prefix), and retries remaining = batch - delivered: a path remains
exactly when it is in the batch and no ledger Source char-strips to it. -/
theorem c1_amended_strip_semantics (gcsvs : List String) (recs : List TransferRecord)
    (x : String) :
    x ∈ reconcile gcsvs recs ↔
      x ∈ gcsvs ∧ ∀ r ∈ recs, pyStrip r.source fileStripChars ≠ x := by
  unfold reconcile
  rw [mem_pySetDiff]
  simp [List.mem_map]

/-! ## Claim C2 -/

/-- Claim C2 counterexample: eight same-date shard paths, a transfer command
that always fails, an upload.info that never records a delivery. The batch of
all eight is yielded once the eighth path accumulates; _run_cmd_retry runs
the command 3 times; reconciliation re-submits the whole batch, which is
yielded again by the final yield and the command runs 3 more times: the
transfer command for this one batch is executed 6 times, not at most 3. -/
theorem c2_counterexample :
    (upload_csvs ⟨fun _ => false, fun _ => []⟩
      ["d/1/a.csv", "d/1/b.csv", "d/1/c.csv", "d/1/d.csv",
       "d/1/e.csv", "d/1/f.csv", "d/1/g.csv", "d/1/h.csv"]).trace.countP isInvoke = 6
    ∧ ((upload_csvs ⟨fun _ => false, fun _ => []⟩
        ["d/1/a.csv", "d/1/b.csv", "d/1/c.csv", "d/1/d.csv",
         "d/1/e.csv", "d/1/f.csv", "d/1/g.csv", "d/1/h.csv"]).trace.all (fun a =>
          match a with
          | Act.invoke srcs => decide (srcs =
              ["d/1/a.csv", "d/1/b.csv", "d/1/c.csv", "d/1/d.csv",
               "d/1/e.csv", "d/1/f.csv", "d/1/g.csv", "d/1/h.csv"])
          | Act.putB _ => true)) = true
    ∧ ¬ (upload_csvs ⟨fun _ => false, fun _ => []⟩
        ["d/1/a.csv", "d/1/b.csv", "d/1/c.csv", "d/1/d.csv",
         "d/1/e.csv", "d/1/f.csv", "d/1/g.csv", "d/1/h.csv"]).trace.countP isInvoke ≤ 3 := by
  decide

/-- Claim C2 amended: each resolved batch runs the transfer command through
one bounded-retry call of at most 3 executions (so the trace never holds more
than 3 executions per resolved batch), and at most 2 failed batches per
upload cycle re-submit a nonempty remainder (the third and later failures
send back the empty list, and the remainder sent after the final yield is
dropped): a permanently failing batch is therefore re-submitted at most
twice and its command executed at most 9 times, not at most 3. -/
theorem c2_amended_retry_bounds (env : UpEnv) (csvs : List String) :
    (upload_csvs env csvs).trace.countP isInvoke
      ≤ 3 * (upload_csvs env csvs).events.length
    ∧ ((upload_csvs env csvs).events.filter badEv).length ≤ 2 := by
  obtain ⟨_, h2, h3, _⟩ := upLoop_spec env csvs [] none 0 0 0
  refine ⟨h2, ?_⟩
  show ((upLoop env csvs [] none 0 0 0).events.filter badEv).length ≤ 2
  have := h3 (by omega)
  omega

/-! ## Claim C3 -/

/-- Claim C3: over any run of upload_csvs, the bqueue.put actions of the
trace are exactly one per resolved batch, in order, each putting that batch's
partition directory (the dirname of its first path) — regardless of whether
the batch was fully delivered, partially delivered or abandoned. A batch on
which the run crashes never resolves and is not an event. -/
theorem c3_enqueue_once_per_batch (env : UpEnv) (csvs : List String) :
    (upload_csvs env csvs).trace.filterMap actPut
      = (upload_csvs env csvs).events.map (fun e => dirname (e.batch.headD "")) :=
  (upLoop_spec env csvs [] none 0 0 0).1

/-! ## Claim C4 -/

/-- Claim C4: a load cycle attempts loads for exactly
pending = uploaded - loaded (the Destination set of upload.info minus the
line set of bqload.info), provided every pending URI decomposes; and when the
bqload.info set already equals the destination set, the cycle performs zero
command rounds (idempotence). -/
theorem c4_pending_and_idempotence (env : BqEnv) (recs : List TransferRecord)
    (bq : List String) :
    ((∀ u ∈ pySetDiff (recs.map (fun r => r.destination)) (bq.map pyStripWs),
        destParses u = true) →
      loadUris (load2bq env recs bq).acts
        = pySetDiff (recs.map (fun r => r.destination)) (bq.map pyStripWs))
    ∧ ((∀ x ∈ bq.map pyStripWs, x ∈ recs.map (fun r => r.destination)) →
       (∀ x ∈ recs.map (fun r => r.destination), x ∈ bq.map pyStripWs) →
       (load2bq env recs bq).acts = []) := by
  constructor
  · intro h
    simp only [load2bq]
    exact loadGo_uris env _ bq 0 h
  · intro _ h2
    simp only [load2bq]
    rw [pySetDiff_eq_nil _ _ h2]
    simp [loadGo]

/-- Claim C4 witness: with bqload.info holding exactly the one uploaded
destination, the cycle performs zero command rounds. -/
theorem c4_witness :
    (load2bq ⟨fun _ => true, fun _ => false⟩
      [⟨"file:///d/x.csv", "gs://b/sys/sid/20240101/db.t.1.csv"⟩]
      ["gs://b/sys/sid/20240101/db.t.1.csv"]).acts = [] :=
  (c4_pending_and_idempotence ⟨fun _ => true, fun _ => false⟩
      [⟨"file:///d/x.csv", "gs://b/sys/sid/20240101/db.t.1.csv"⟩]
      ["gs://b/sys/sid/20240101/db.t.1.csv"]).2 (by decide) (by decide)

/-! ## Claim C5 -/

/-- Claim C5: over any sequence of load cycles on one partition whose
upload.info only ever grows (every record each cycle reads belongs to the
final ledger U), every line of bqload.info is a Destination of U: the load
cycle only appends URIs it read from upload.info. -/
theorem c5_ledger_invariant (cycles : List (BqEnv × List TransferRecord))
    (bq0 : List String) (U : List TransferRecord)
    (h0 : ∀ l ∈ bq0, l ∈ U.map (fun r => r.destination))
    (hU : ∀ c ∈ cycles, ∀ r ∈ c.2, r ∈ U) :
    ∀ l ∈ runCycles cycles bq0, l ∈ U.map (fun r => r.destination) := by
  induction cycles generalizing bq0 with
  | nil => exact h0
  | cons c rest ih =>
    intro l hl
    refine ih _ ?_ (fun d hd => hU d (by simp [hd])) l hl
    intro m hm
    rcases load2bq_lines c.1 c.2 bq0 m hm with h1 | h2
    · exact h0 m h1
    · rcases List.mem_map.1 h2 with ⟨r, hr, hrm⟩
      exact List.mem_map.2 ⟨r, hU c (by simp) r hr, hrm⟩

/-- Claim C5 witness: one cycle on a fresh partition loads the single
uploaded destination and the invariant places it among the Destination
values of the ledger. -/
theorem c5_witness :
    "gs://b/sys/sid/20240101/db.t.1.csv"
      ∈ ([(⟨"file:///d/x.csv", "gs://b/sys/sid/20240101/db.t.1.csv"⟩ : TransferRecord)].map
          (fun r => r.destination)) :=
  c5_ledger_invariant
    [(⟨fun _ => true, fun _ => false⟩, [⟨"file:///d/x.csv", "gs://b/sys/sid/20240101/db.t.1.csv"⟩])]
    [] [⟨"file:///d/x.csv", "gs://b/sys/sid/20240101/db.t.1.csv"⟩]
    (by decide) (by decide)
    "gs://b/sys/sid/20240101/db.t.1.csv" (by decide)

/-! ## Claim C6 -/

/-- Claim C6 counterexample: on the destination of claim and spec,
gs://b/sid/20240101/db.t.1.csv, the character-set strip leaves
b/sid/20240101/db.t.1.csv, which splits into FOUR segments, not the five the
destructuring at line 236 demands: the cycle raises ValueError, performs no
bq load at all and appends nothing, instead of loading dataset db, table t. -/
theorem c6_counterexample :
    parseDest "gs://b/sid/20240101/db.t.1.csv" = none
    ∧ (load2bq ⟨fun _ => true, fun _ => false⟩
        [⟨"file:///d/20240101/db.t.1.csv", "gs://b/sid/20240101/db.t.1.csv"⟩] []).crashed = true
    ∧ (load2bq ⟨fun _ => true, fun _ => false⟩
        [⟨"file:///d/20240101/db.t.1.csv", "gs://b/sid/20240101/db.t.1.csv"⟩] []).acts = []
    ∧ (load2bq ⟨fun _ => true, fun _ => false⟩
        [⟨"file:///d/20240101/db.t.1.csv", "gs://b/sid/20240101/db.t.1.csv"⟩] []).bqLines = [] := by
  decide

/-- Claim C6 amended: the decomposition demands exactly five path segments
counting the bucket (bucket, system, server id, date, file name), raising on
any other shape; the dataset is derived from the database component of the
file name alone. For the five-segment destination
gs://b/sys/sid/20240101/db.t.1.csv the cycle attempts bq load once for
dataset db and table t and on success appends that URI to bqload.info. -/
theorem c6_amended_five_segments :
    parseDest "gs://b/sys/sid/20240101/db.t.1.csv" = some ("sys", "sid", "db.t.1.csv")
    ∧ (load2bq ⟨fun _ => true, fun _ => false⟩
        [⟨"file:///d/20240101/db.t.1.csv", "gs://b/sys/sid/20240101/db.t.1.csv"⟩] []).acts
      = [LAct.mkDataset "db" true,
         LAct.loadTable "db" "t" none "gs://b/sys/sid/20240101/db.t.1.csv" true]
    ∧ (load2bq ⟨fun _ => true, fun _ => false⟩
        [⟨"file:///d/20240101/db.t.1.csv", "gs://b/sys/sid/20240101/db.t.1.csv"⟩] []).bqLines
      = ["gs://b/sys/sid/20240101/db.t.1.csv"]
    ∧ (load2bq ⟨fun _ => true, fun _ => false⟩
        [⟨"file:///d/20240101/db.t.1.csv", "gs://b/sys/sid/20240101/db.t.1.csv"⟩] []).crashed
      = false := by
  decide

/-! ## Claims C10 and C7 -/

/-- Claim C10: on same-date input with every send empty (the success path,
i.e. batches built from the initial queue contents), group_lst chunks the
paths in order, closing a batch as soon as 8 paths accumulate, so no emitted
batch holds more than 8 paths — a cap the spec does not state. -/
theorem c10_batch_cap_of_8 (d : String) (csvs : List String)
    (h : ∀ p ∈ csvs, basename (dirname p) = d) :
    group_lst (fun _ => []) csvs [] none 0 = chunksOf8 csvs []
    ∧ ∀ b ∈ group_lst (fun _ => []) csvs [] none 0, b.length ≤ 8 := by
  have he := group_lst_same_date d csvs [] none 0 h (Or.inl rfl)
  exact ⟨he, by rw [he]; exact chunksOf8_len csvs [] (by simp)⟩

/-- Claim C10 witness: nine same-date paths chunk into a batch of eight and
a batch of one. -/
theorem c10_witness :
    group_lst (fun _ => [])
        ["p/2/a.csv", "p/2/b.csv", "p/2/c.csv", "p/2/d.csv", "p/2/e.csv",
         "p/2/f.csv", "p/2/g.csv", "p/2/h.csv", "p/2/i.csv"] [] none 0
      = chunksOf8
          ["p/2/a.csv", "p/2/b.csv", "p/2/c.csv", "p/2/d.csv", "p/2/e.csv",
           "p/2/f.csv", "p/2/g.csv", "p/2/h.csv", "p/2/i.csv"] [] :=
  (c10_batch_cap_of_8 "2"
    ["p/2/a.csv", "p/2/b.csv", "p/2/c.csv", "p/2/d.csv", "p/2/e.csv",
     "p/2/f.csv", "p/2/g.csv", "p/2/h.csv", "p/2/i.csv"] (by decide)).1

/-- Claim C7, the code bug evaluated: on input spanning two dates, the
generator yields the first-date batch, but the first path of the new date is
never added — line 169 appends the global csv MODULE object (to_ups.append
of csv instead of csv_f) — so the second path appears in no emitted batch
and the next batch holds a non-path object, contradicting both
date-homogeneity and the every-path-in-exactly-one-batch property the spec
states for the grouping step. -/
theorem c7_csv_module_typo :
    group_lst (fun _ => []) ["d/20240101/a.csv", "d/20240102/b.csv"] [] none 0
      = [[UEnt.path "d/20240101/a.csv"], [UEnt.csvMod]]
    ∧ UEnt.path "d/20240102/b.csv"
        ∉ (group_lst (fun _ => []) ["d/20240101/a.csv", "d/20240102/b.csv"] [] none 0).flatten := by
  decide

/-! ## Claim C8 -/

/-- Claim C8: a nonempty row set spanning two or more schema fingerprints
flags the table altered: every resulting shard uses the tmp suffix and the
drift warning is recorded; with exactly one fingerprint every shard uses the
csv suffix. This holds whether or not a write raises part-way. -/
theorem c8_drift_tmp_suffix (env : SaveEnv) (trows : List Row) (gs : Bool)
    (h : trows ≠ []) :
    (2 ≤ (group_by_field trows).length →
      (∀ s ∈ (save2csv env trows gs).shards, s.suffix = "tmp")
      ∧ SaveLog.driftWarn ∈ (save2csv env trows gs).logs)
    ∧ ((group_by_field trows).length = 1 →
      ∀ s ∈ (save2csv env trows gs).shards, s.suffix = "csv") := by
  have hne : trows.isEmpty = false := by
    cases trows with
    | nil => exact absurd rfl h
    | cons a l => rfl
  constructor
  · intro h2
    unfold save2csv
    rw [hne]
    simp only [Bool.false_eq_true, if_false]
    rw [if_pos (by omega)]
    rcases hg : saveGo env "tmp" gs (group_by_field trows) 0 with ⟨sh, lg, er⟩
    have hsuf : ∀ s ∈ sh, s.suffix = "tmp" := by
      intro s hs
      have := saveGo_suffix env "tmp" gs (group_by_field trows) 0 s
      rw [hg] at this
      exact this hs
    rcases er with _ | e
    · exact ⟨hsuf, by simp⟩
    · exact ⟨hsuf, by simp⟩
  · intro h1
    unfold save2csv
    rw [hne]
    simp only [Bool.false_eq_true, if_false]
    rw [if_neg (by omega)]
    rcases hg : saveGo env "csv" gs (group_by_field trows) 0 with ⟨sh, lg, er⟩
    have hsuf : ∀ s ∈ sh, s.suffix = "csv" := by
      intro s hs
      have := saveGo_suffix env "csv" gs (group_by_field trows) 0 s
      rw [hg] at this
      exact this hs
    rcases er with _ | e
    · exact hsuf
    · exact hsuf

/-- Claim C8 witness: two rows with different column sets give two
fingerprints and the drift warning is recorded. -/
theorem c8_witness :
    SaveLog.driftWarn
      ∈ (save2csv ⟨fun _ => none⟩ ([[("a", "1")], [("b", "2")]] : List Row) false).logs :=
  ((c8_drift_tmp_suffix ⟨fun _ => none⟩ ([[("a", "1")], [("b", "2")]] : List Row) false
      (by decide)).1 (by decide)).2

/-! ## Claim C9 -/

/-- Claim C9 counterexample: the Shard Writer is NOT the only stage that
propagates an exception rather than converting the failure into a log record
and forward progress: a load cycle on a destination whose path has four
segments instead of five dies in an uncaught ValueError (crashed), having
made no progress at all. -/
theorem c9_counterexample :
    (load2bq ⟨fun _ => true, fun _ => false⟩
        [⟨"file:///d/20240202/x.y.1.csv", "gs://b/sid/20240202/x.y.1.csv"⟩] []).crashed = true
    ∧ (load2bq ⟨fun _ => true, fun _ => false⟩
        [⟨"file:///d/20240202/x.y.1.csv", "gs://b/sid/20240202/x.y.1.csv"⟩] []).acts = [] := by
  decide

/-- Claim C9 amended: any exception during a table's shard writes is logged
(the error record is the last log entry) and then re-raised unchanged — the
error save2csv ends with is exactly the first write error the environment
raised, the dump aborted with only the shards before it written. The Shard
Writer is however not the ONLY stage that propagates: the Load Coordinator
raises on a malformed destination URI (see the counterexample). -/
theorem c9_reraise_original (env : SaveEnv) (trows : List Row) (gs : Bool)
    (e : String) (h : (save2csv env trows gs).err = some e) :
    (save2csv env trows gs).logs.getLast? = some SaveLog.dumpError
    ∧ ∃ i, i < (group_by_field trows).length
        ∧ env.writeError i = some e
        ∧ (∀ j, j < i → env.writeError j = none)
        ∧ (save2csv env trows gs).shards.length = i := by
  unfold save2csv at h ⊢
  by_cases hne : trows.isEmpty
  · rw [if_pos hne] at h
    exact absurd h (by simp)
  · rw [if_neg hne] at h ⊢
    by_cases halt : 1 < (group_by_field trows).length
    · rw [if_pos halt] at h ⊢
      rcases hg : saveGo env "tmp" gs (group_by_field trows) 0 with ⟨sh, lg, er⟩
      rw [hg] at h
      rcases er with _ | e'
      · exact absurd h (by simp)
      · have hee : e' = e := by simpa using h
        subst hee
        have hx := saveGo_err env "tmp" gs (group_by_field trows) 0 e'
        rw [hg] at hx
        obtain ⟨k, hk1, hk2, hk3, hk4⟩ := hx rfl
        refine ⟨?_, k, hk1, by simpa using hk2, fun j hj => by simpa using hk3 j hj, ?_⟩
        · show (SaveLog.driftWarn :: (lg ++ [SaveLog.dumpError])).getLast?
            = some SaveLog.dumpError
          rw [show SaveLog.driftWarn :: (lg ++ [SaveLog.dumpError])
              = (SaveLog.driftWarn :: lg) ++ [SaveLog.dumpError] from rfl,
            List.getLast?_append_cons]
          simp
        · show sh.length = k
          simpa using hk4
    · rw [if_neg halt] at h ⊢
      rcases hg : saveGo env "csv" gs (group_by_field trows) 0 with ⟨sh, lg, er⟩
      rw [hg] at h
      rcases er with _ | e'
      · exact absurd h (by simp)
      · have hee : e' = e := by simpa using h
        subst hee
        have hx := saveGo_err env "csv" gs (group_by_field trows) 0 e'
        rw [hg] at hx
        obtain ⟨k, hk1, hk2, hk3, hk4⟩ := hx rfl
        refine ⟨?_, k, hk1, by simpa using hk2, fun j hj => by simpa using hk3 j hj, ?_⟩
        · show (lg ++ [SaveLog.dumpError]).getLast? = some SaveLog.dumpError
          rw [List.getLast?_append_cons]
          simp
        · show sh.length = k
          simpa using hk4

/-- Claim C9 witness: a write that raises on the first group is logged and
re-raised, the dump ending on the error record. -/
theorem c9_witness :
    (save2csv ⟨fun i => if i = 0 then some "ioerror" else none⟩
        ([[("a", "1")]] : List Row) false).logs.getLast? = some SaveLog.dumpError :=
  (c9_reraise_original ⟨fun i => if i = 0 then some "ioerror" else none⟩
    ([[("a", "1")]] : List Row) false "ioerror" (by decide)).1
